import Mathlib

/-!
Shallow embedding of the larapulse/migrator MySQL migration engine:
the DDL renderers (column types, keys, foreign keys, table commands),
the Schema command pool, and the Migrator state machine
(Migrate / Rollback / Revert) over an explicit tracking-table state.

Database effects are modelled by an environment of oracles: each query or
statement execution either succeeds or yields an error string, and the
tracking table is an explicit list of rows ordered by applied timestamp
(ascending insertion order, matching `ORDER BY applied_at ASC`).
-/

set_option autoImplicit false

namespace migrator

/-- Go `strings.ToUpper` modelled per character (ASCII letters, which covers
every whitelist comparison in this code). -/
def strToUpper (s : String) : String := String.mk (s.data.map Char.toUpper)

/-- Go `strings.ToLower` modelled per character (ASCII letters). -/
def strToLower (s : String) : String := String.mk (s.data.map Char.toLower)

/-- Go `list` (foreign.go): a string list with a linear membership probe. -/
abbrev list := List String

/-- Go `list.has`: linear scan comparing each item to the value. -/
def list.has : list → String → Bool
  | [], _ => false
  | x :: xs, v => if x = v then true else list.has xs v

/-- Go `referenceOptions` (foreign.go): whitelist of referential actions. -/
def referenceOptions : list := ["SET NULL", "CASCADE", "RESTRICT", "NO ACTION", "SET DEFAULT"]

/-- Go `keyTypes` (key.go): whitelist of key type markers. -/
def keyTypes : list := ["PRIMARY", "UNIQUE"]

/-- Go `Key` (key.go): name, type marker (Go field `Type`, here `Typ`), columns. -/
structure Key where
  Name : String := ""
  Typ : String := ""
  Columns : List String := []
  deriving DecidableEq, Repr

/-- Go `Key.render` (key.go): empty when no columns; the type marker is kept
only when its uppercase form is whitelisted; the name is backquoted when present. -/
def Key.render (k : Key) : String :=
  if k.Columns.length = 0 then ""
  else
    let sql := if keyTypes.has (strToUpper k.Typ) then strToUpper k.Typ ++ " " else ""
    let sql := sql ++ "KEY"
    let sql := if k.Name ≠ "" then sql ++ " `" ++ k.Name ++ "`" else sql
    sql ++ " (`" ++ String.intercalate "`, `" k.Columns ++ "`)"

/-- Go `keys.render` (key.go): renders each key, drops empties, joins with ", ". -/
def keys.render (ks : List Key) : String :=
  String.intercalate ", " ((ks.map Key.render).filter (fun v => v ≠ ""))

/-- Go `Foreign` (foreign.go). -/
structure Foreign where
  Key : String := ""
  Column : String := ""
  Reference : String := ""
  On : String := ""
  OnUpdate : String := ""
  OnDelete : String := ""
  deriving DecidableEq, Repr

/-- Go `Foreign.render` (foreign.go): empty when a required identifier is missing;
ON DELETE then ON UPDATE, each kept only when the uppercased action is whitelisted. -/
def Foreign.render (f : Foreign) : String :=
  if f.Key = "" ∨ f.Column = "" ∨ f.On = "" ∨ f.Reference = "" then ""
  else
    let sql := "CONSTRAINT `" ++ f.Key ++ "` FOREIGN KEY (`" ++ f.Column ++ "`) REFERENCES `"
      ++ f.On ++ "` (`" ++ f.Reference ++ "`)"
    let sql := if referenceOptions.has (strToUpper f.OnDelete)
      then sql ++ " ON DELETE " ++ strToUpper f.OnDelete else sql
    let sql := if referenceOptions.has (strToUpper f.OnUpdate)
      then sql ++ " ON UPDATE " ++ strToUpper f.OnUpdate else sql
    sql

/-- Go `foreigns.render` (foreign.go): renders every foreign key (no empty
filtering) and joins with ", ". -/
def foreigns.render (fs : List Foreign) : String :=
  String.intercalate ", " (fs.map Foreign.render)

/-- Go `buildDefaultForString` (column.go): empty default emits nothing;
a value wrapped in parentheses is an SQL expression emitted unquoted;
the sentinels `<empty>` and `<nil>` are normalized to the empty string;
anything else is single-quoted. The first/last byte probes `v[:1]` and
`v[len(v)-1:]` are modelled on the character list. -/
def buildDefaultForString (v : String) : String :=
  if v = "" then ""
  else if v.data.head? = some '(' ∧ v.data.getLast? = some ')' then " DEFAULT " ++ v
  else if v = "<empty>" ∨ v = "<nil>" then " DEFAULT ''"
  else " DEFAULT '" ++ v ++ "'"

/-- Go `Integer` (column.go). Field defaults are Go zero values. -/
structure Integer where
  Default : String := ""
  Nullable : Bool := false
  Comment : String := ""
  OnUpdate : String := ""
  Prefix : String := ""
  Unsigned : Bool := false
  Precision : Nat := 0
  Autoincrement : Bool := false
  deriving DecidableEq, Repr

/-- Go `Integer.buildRow` (column.go): note the default is emitted verbatim,
without quoting. -/
def Integer.buildRow (i : Integer) : String :=
  let sql := i.Prefix ++ "int"
  let sql := if i.Precision > 0 then sql ++ "(" ++ toString i.Precision ++ ")" else sql
  let sql := if i.Unsigned then sql ++ " unsigned" else sql
  let sql := if i.Nullable then sql ++ " NULL" else sql ++ " NOT NULL"
  let sql := if i.Default ≠ "" then sql ++ " DEFAULT " ++ i.Default else sql
  let sql := if i.Autoincrement then sql ++ " AUTO_INCREMENT" else sql
  let sql := if i.OnUpdate ≠ "" then sql ++ " ON UPDATE " ++ i.OnUpdate else sql
  if i.Comment ≠ "" then sql ++ " COMMENT '" ++ i.Comment ++ "'" else sql

/-- Go `Floatable` (column.go); Go field `Type` is `Typ` here. -/
structure Floatable where
  Default : String := ""
  Nullable : Bool := false
  Comment : String := ""
  OnUpdate : String := ""
  Typ : String := ""
  Unsigned : Bool := false
  Precision : Nat := 0
  Scale : Nat := 0
  deriving DecidableEq, Repr

/-- Go `Floatable.buildRow` (column.go): default emitted verbatim, unquoted. -/
def Floatable.buildRow (f : Floatable) : String :=
  let sql := if f.Typ = "" then "float" else f.Typ
  let sql :=
    if f.Scale > 0 then sql ++ "(" ++ toString f.Precision ++ "," ++ toString f.Scale ++ ")"
    else if f.Precision > 0 then sql ++ "(" ++ toString f.Precision ++ ")"
    else sql
  let sql := if f.Unsigned then sql ++ " unsigned" else sql
  let sql := if f.Nullable then sql ++ " NULL" else sql ++ " NOT NULL"
  let sql := if f.Default ≠ "" then sql ++ " DEFAULT " ++ f.Default else sql
  let sql := if f.OnUpdate ≠ "" then sql ++ " ON UPDATE " ++ f.OnUpdate else sql
  if f.Comment ≠ "" then sql ++ " COMMENT '" ++ f.Comment ++ "'" else sql

/-- Go `Timable` (column.go); Go field `Type` is `Typ` here. -/
structure Timable where
  Default : String := ""
  Nullable : Bool := false
  Comment : String := ""
  OnUpdate : String := ""
  Typ : String := ""
  Precision : Nat := 0
  deriving DecidableEq, Repr

/-- Go `Timable.buildRow` (column.go): precision 1..6 only for time-bearing
sub-types; default emitted verbatim, unquoted. -/
def Timable.buildRow (t : Timable) : String :=
  let sql := if t.Typ = "" then "timestamp" else t.Typ
  let validForPrecision : list := ["time", "datetime", "timestamp"]
  let sql :=
    if t.Precision > 0 ∧ t.Precision ≤ 6 ∧ validForPrecision.has (strToLower sql)
    then sql ++ "(" ++ toString t.Precision ++ ")" else sql
  let sql := if t.Nullable then sql ++ " NULL" else sql ++ " NOT NULL"
  let sql := if t.Default ≠ "" then sql ++ " DEFAULT " ++ t.Default else sql
  let sql := if t.OnUpdate ≠ "" then sql ++ " ON UPDATE " ++ t.OnUpdate else sql
  if t.Comment ≠ "" then sql ++ " COMMENT '" ++ t.Comment ++ "'" else sql

/-- Go `String` column type (column.go); named `StringCol` because `String`
is taken in Lean. -/
structure StringCol where
  Default : String := ""
  Nullable : Bool := false
  Comment : String := ""
  OnUpdate : String := ""
  Charset : String := ""
  Collate : String := ""
  Fixed : Bool := false
  Precision : Nat := 0
  deriving DecidableEq, Repr

/-- Go `String.buildRow` (column.go): char/varchar; the default goes through
`buildDefaultForString` (single-quoted unless parenthesized). -/
def StringCol.buildRow (s : StringCol) : String :=
  let sql := (if s.Fixed then "" else "var") ++ "char"
  let sql := if s.Precision > 0 then sql ++ "(" ++ toString s.Precision ++ ")" else sql
  let sql := if s.Charset ≠ "" then sql ++ " CHARACTER SET " ++ s.Charset else sql
  let sql :=
    if s.Collate ≠ "" then sql ++ " COLLATE " ++ s.Collate
    else if s.Charset = "" then sql ++ " COLLATE utf8mb4_unicode_ci"
    else sql
  let sql := if s.Nullable then sql ++ " NULL" else sql ++ " NOT NULL"
  let sql := sql ++ buildDefaultForString s.Default
  let sql := if s.OnUpdate ≠ "" then sql ++ " ON UPDATE " ++ s.OnUpdate else sql
  if s.Comment ≠ "" then sql ++ " COMMENT '" ++ s.Comment ++ "'" else sql

/-- Go `Text` (column.go). -/
structure Text where
  Default : String := ""
  Nullable : Bool := false
  Comment : String := ""
  OnUpdate : String := ""
  Charset : String := ""
  Collate : String := ""
  Prefix : String := ""
  Blob : Bool := false
  deriving DecidableEq, Repr

/-- Go `Text.buildRow` (column.go): text/blob; the default goes through
`buildDefaultForString`. -/
def Text.buildRow (t : Text) : String :=
  let sql := t.Prefix ++ (if t.Blob then "blob" else "text")
  let sql := if t.Charset ≠ "" then sql ++ " CHARACTER SET " ++ t.Charset else sql
  let sql :=
    if t.Collate ≠ "" then sql ++ " COLLATE " ++ t.Collate
    else if t.Charset = "" ∧ t.Blob = false then sql ++ " COLLATE utf8mb4_unicode_ci"
    else sql
  let sql := if t.Nullable then sql ++ " NULL" else sql ++ " NOT NULL"
  let sql := sql ++ buildDefaultForString t.Default
  let sql := if t.OnUpdate ≠ "" then sql ++ " ON UPDATE " ++ t.OnUpdate else sql
  if t.Comment ≠ "" then sql ++ " COMMENT '" ++ t.Comment ++ "'" else sql

/-- Go `JSON` (column.go). -/
structure JSON where
  Default : String := ""
  Nullable : Bool := false
  Comment : String := ""
  OnUpdate : String := ""
  deriving DecidableEq, Repr

/-- Go `JSON.buildRow` (column.go): the default goes through
`buildDefaultForString`. -/
def JSON.buildRow (j : JSON) : String :=
  let sql := "json"
  let sql := if j.Nullable then sql ++ " NULL" else sql ++ " NOT NULL"
  let sql := sql ++ buildDefaultForString j.Default
  let sql := if j.OnUpdate ≠ "" then sql ++ " ON UPDATE " ++ j.OnUpdate else sql
  if j.Comment ≠ "" then sql ++ " COMMENT '" ++ j.Comment ++ "'" else sql

/-- Go `Enum` (column.go). -/
structure Enum where
  Default : String := ""
  Nullable : Bool := false
  Comment : String := ""
  OnUpdate : String := ""
  Values : List String := []
  Multiple : Bool := false
  deriving DecidableEq, Repr

/-- Go `Enum.buildRow` (column.go): enum/set with quoted value list; the
default goes through `buildDefaultForString`. -/
def Enum.buildRow (e : Enum) : String :=
  let sql := (if e.Multiple then "set" else "enum")
    ++ "('" ++ String.intercalate "', '" e.Values ++ "')"
  let sql := if e.Nullable then sql ++ " NULL" else sql ++ " NOT NULL"
  let sql := sql ++ buildDefaultForString e.Default
  let sql := if e.OnUpdate ≠ "" then sql ++ " ON UPDATE " ++ e.OnUpdate else sql
  if e.Comment ≠ "" then sql ++ " COMMENT '" ++ e.Comment ++ "'" else sql

/-- Go `Bit` (column.go). -/
structure Bit where
  Default : String := ""
  Nullable : Bool := false
  Comment : String := ""
  OnUpdate : String := ""
  Precision : Nat := 0
  deriving DecidableEq, Repr

/-- Go `Bit.buildRow` (column.go): default emitted verbatim, unquoted. -/
def Bit.buildRow (b : Bit) : String :=
  let sql := "bit"
  let sql := if b.Precision > 0 then sql ++ "(" ++ toString b.Precision ++ ")" else sql
  let sql := if b.Nullable then sql ++ " NULL" else sql ++ " NOT NULL"
  let sql := if b.Default ≠ "" then sql ++ " DEFAULT " ++ b.Default else sql
  let sql := if b.OnUpdate ≠ "" then sql ++ " ON UPDATE " ++ b.OnUpdate else sql
  if b.Comment ≠ "" then sql ++ " COMMENT '" ++ b.Comment ++ "'" else sql

/-- Go `Binary` (column.go). -/
structure Binary where
  Default : String := ""
  Nullable : Bool := false
  Comment : String := ""
  OnUpdate : String := ""
  Fixed : Bool := false
  Precision : Nat := 0
  deriving DecidableEq, Repr

/-- Go `Binary.buildRow` (column.go): default emitted verbatim, unquoted. -/
def Binary.buildRow (b : Binary) : String :=
  let sql := (if b.Fixed then "" else "var") ++ "binary"
  let sql := if b.Precision > 0 then sql ++ "(" ++ toString b.Precision ++ ")" else sql
  let sql := if b.Nullable then sql ++ " NULL" else sql ++ " NOT NULL"
  let sql := if b.Default ≠ "" then sql ++ " DEFAULT " ++ b.Default else sql
  let sql := if b.OnUpdate ≠ "" then sql ++ " ON UPDATE " ++ b.OnUpdate else sql
  if b.Comment ≠ "" then sql ++ " COMMENT '" ++ b.Comment ++ "'" else sql

/-- Go `columnType` interface (column.go) as a closed variant set; `custom`
is the escape hatch for caller-supplied implementations (e.g. test doubles). -/
inductive columnType where
  | integer (i : Integer)
  | floatable (f : Floatable)
  | timable (t : Timable)
  | stringCol (s : StringCol)
  | text (t : Text)
  | json (j : JSON)
  | enum (e : Enum)
  | bit (b : Bit)
  | binary (b : Binary)
  | custom (row : String)
  deriving DecidableEq, Repr

/-- Dispatch of Go `columnType.buildRow`. -/
def columnType.buildRow : columnType → String
  | .integer i => i.buildRow
  | .floatable f => f.buildRow
  | .timable t => t.buildRow
  | .stringCol s => s.buildRow
  | .text t => t.buildRow
  | .json j => j.buildRow
  | .enum e => e.buildRow
  | .bit b => b.buildRow
  | .binary b => b.buildRow
  | .custom row => row

/-- Go `column` (column.go): a field name with its type definition. -/
structure column where
  field : String
  definition : columnType
  deriving DecidableEq, Repr

/-- Go `columns.render` (column.go): backquoted field name, a space, the
rendered definition; all columns joined with ", " (no empty filtering). -/
def columns.render (cs : List column) : String :=
  String.intercalate ", " (cs.map (fun c => "`" ++ c.field ++ "` " ++ c.definition.buildRow))

/-- Go `Table` (table.go). -/
structure Table where
  Name : String := ""
  columns : List column := []
  indexes : List Key := []
  foreigns : List Foreign := []
  Engine : String := ""
  Charset : String := ""
  Collation : String := ""
  Comment : String := ""
  deriving DecidableEq, Repr

/-- Go `AddColumnCommand` (table_command.go); a nil `Column` interface value
is `none`. -/
structure AddColumnCommand where
  Name : String := ""
  Column : Option columnType := none
  After : String := ""
  First : Bool := false
  deriving DecidableEq, Repr

/-- Go `AddColumnCommand.ToSQL` (table_command.go). -/
def AddColumnCommand.ToSQL (c : AddColumnCommand) : String :=
  match c.Column with
  | none => ""
  | some col =>
    let definition := col.buildRow
    if c.Name = "" ∨ definition = "" then ""
    else
      let sql := "ADD COLUMN `" ++ c.Name ++ "` " ++ definition
      if c.After ≠ "" then sql ++ " AFTER " ++ c.After
      else if c.First then sql ++ " FIRST"
      else sql

/-- Go `RenameColumnCommand` (table_command.go). -/
structure RenameColumnCommand where
  Old : String := ""
  New : String := ""
  deriving DecidableEq, Repr

/-- Go `RenameColumnCommand.ToSQL` (table_command.go). -/
def RenameColumnCommand.ToSQL (c : RenameColumnCommand) : String :=
  if c.Old = "" ∨ c.New = "" then ""
  else "RENAME COLUMN `" ++ c.Old ++ "` TO `" ++ c.New ++ "`"

/-- Go `ModifyColumnCommand` (table_command.go). -/
structure ModifyColumnCommand where
  Name : String := ""
  Column : Option columnType := none
  deriving DecidableEq, Repr

/-- Go `ModifyColumnCommand.ToSQL` (table_command.go). -/
def ModifyColumnCommand.ToSQL (c : ModifyColumnCommand) : String :=
  match c.Column with
  | none => ""
  | some col =>
    let definition := col.buildRow
    if c.Name = "" ∨ definition = "" then ""
    else "MODIFY `" ++ c.Name ++ "` " ++ definition

/-- Go `ChangeColumnCommand` (table_command.go). -/
structure ChangeColumnCommand where
  From : String := ""
  To : String := ""
  Column : Option columnType := none
  deriving DecidableEq, Repr

/-- Go `ChangeColumnCommand.ToSQL` (table_command.go). -/
def ChangeColumnCommand.ToSQL (c : ChangeColumnCommand) : String :=
  match c.Column with
  | none => ""
  | some col =>
    let definition := col.buildRow
    if c.From = "" ∨ c.To = "" ∨ definition = "" then ""
    else "CHANGE `" ++ c.From ++ "` `" ++ c.To ++ "` " ++ col.buildRow

/-- Go `Command` interface over table alter actions (table_command.go),
as a closed variant set; the string-typed Go commands (DropColumnCommand,
DropIndexCommand, DropForeignCommand, AddPrimaryIndexCommand) carry their
string directly, and `custom` is the open-interface escape hatch. -/
inductive Command where
  | addColumn (c : AddColumnCommand)
  | renameColumn (c : RenameColumnCommand)
  | modifyColumn (c : ModifyColumnCommand)
  | changeColumn (c : ChangeColumnCommand)
  | dropColumn (name : String)
  | addIndex (Name : String) (Columns : List String)
  | dropIndex (name : String)
  | addForeign (F : Foreign)
  | dropForeign (name : String)
  | addUniqueIndex (Key : String) (Columns : List String)
  | addPrimaryIndex (name : String)
  | dropPrimaryIndex
  | custom (sql : String)
  deriving DecidableEq, Repr

/-- Go `Command.ToSQL` dispatch (table_command.go): each variant returns ""
when its required field is missing. -/
def Command.ToSQL : Command → String
  | .addColumn c => c.ToSQL
  | .renameColumn c => c.ToSQL
  | .modifyColumn c => c.ToSQL
  | .changeColumn c => c.ToSQL
  | .dropColumn name => if name = "" then "" else "DROP COLUMN `" ++ name ++ "`"
  | .addIndex Name Columns =>
    if Name = "" ∨ Columns.length = 0 then ""
    else "ADD KEY `" ++ Name ++ "` (`" ++ String.intercalate "`, `" Columns ++ "`)"
  | .dropIndex name => if name = "" then "" else "DROP KEY `" ++ name ++ "`"
  | .addForeign F => if F.render = "" then "" else "ADD " ++ F.render
  | .dropForeign name => if name = "" then "" else "DROP FOREIGN KEY `" ++ name ++ "`"
  | .addUniqueIndex Key Columns =>
    if Key = "" ∨ Columns.length = 0 then ""
    else "ADD UNIQUE KEY `" ++ Key ++ "` (`" ++ String.intercalate "`, `" Columns ++ "`)"
  | .addPrimaryIndex name => if name = "" then "" else "ADD PRIMARY KEY (`" ++ name ++ "`)"
  | .dropPrimaryIndex => "DROP PRIMARY KEY"
  | .custom sql => sql

/-- Go `TableCommands` (table_command.go): ordered pool of alter actions. -/
abbrev TableCommands := List Command

/-- Go `TableCommands.ToSQL` (table_command.go): joins every row with ", "
(no empty filtering). -/
def TableCommands.ToSQL (tc : TableCommands) : String :=
  String.intercalate ", " (tc.map Command.ToSQL)

/-- Go `createTableCommand` (command.go). -/
structure createTableCommand where
  t : Table
  deriving DecidableEq, Repr

/-- Go `createTableCommand.toSQL` (command.go): empty when the table name is
missing; falls back to a literal id column; appends rendered indexes and
foreign keys; engine/charset/collation defaulting. -/
def createTableCommand.toSQL (c : createTableCommand) : String :=
  if c.t.Name = "" then ""
  else
    let context := columns.render c.t.columns
    let context := if context = "" then "`id` bigint(20) unsigned NOT NULL AUTO_INCREMENT"
      else context
    let context := if keys.render c.t.indexes ≠ ""
      then context ++ ", " ++ keys.render c.t.indexes else context
    let context := if foreigns.render c.t.foreigns ≠ ""
      then context ++ ", " ++ foreigns.render c.t.foreigns else context
    let engine := if c.t.Engine = "" then "InnoDB" else c.t.Engine
    let charset := c.t.Charset
    let collation := c.t.Collation
    let charset := if charset = "" ∧ collation = "" then "utf8mb4" else charset
    let collation := if c.t.Charset = "" ∧ c.t.Collation = "" then "utf8mb4_unicode_ci"
      else collation
    let charset :=
      if charset = "" ∧ collation ≠ "" then ((collation.splitOn "_").headD "") else charset
    let collation := if charset ≠ "" ∧ collation = "" then charset ++ "_unicode_ci"
      else collation
    "CREATE TABLE `" ++ c.t.Name ++ "` (" ++ context ++ ") ENGINE=" ++ engine
      ++ " DEFAULT CHARSET=" ++ charset ++ " COLLATE=" ++ collation

/-- Go `dropTableCommand` (command.go). -/
structure dropTableCommand where
  table : String
  soft : Bool
  option : String
  deriving DecidableEq, Repr

/-- Go `dropTableCommand.toSQL` (command.go): renders unconditionally (no
check that the table name is non-empty); the RESTRICT/CASCADE option is
whitelisted case-insensitively. -/
def dropTableCommand.toSQL (c : dropTableCommand) : String :=
  let sql := "DROP TABLE"
  let sql := if c.soft then sql ++ " IF EXISTS" else sql
  let sql := sql ++ " `" ++ c.table ++ "`"
  let validOptions : list := ["RESTRICT", "CASCADE"]
  if validOptions.has (strToUpper c.option) then sql ++ " " ++ strToUpper c.option else sql

/-- Go `renameTableCommand` (command.go). -/
structure renameTableCommand where
  old : String
  new : String
  deriving DecidableEq, Repr

/-- Go `renameTableCommand.toSQL` (command.go): renders unconditionally (no
empty-name check). -/
def renameTableCommand.toSQL (c : renameTableCommand) : String :=
  "RENAME TABLE `" ++ c.old ++ "` TO `" ++ c.new ++ "`"

/-- Go `alterTableCommand` (command.go). -/
structure alterTableCommand where
  name : String
  pool : TableCommands
  deriving DecidableEq, Repr

/-- Go `alterTableCommand.poolToSQL` (command.go): joins every sub-command
with ", " (no empty filtering). -/
def alterTableCommand.poolToSQL (c : alterTableCommand) : String :=
  String.intercalate ", " (c.pool.map Command.ToSQL)

/-- Go `alterTableCommand.toSQL` (command.go): empty when the table name or
the sub-command pool is empty. -/
def alterTableCommand.toSQL (c : alterTableCommand) : String :=
  if c.name = "" ∨ c.pool.length = 0 then ""
  else "ALTER TABLE `" ++ c.name ++ "` " ++ c.poolToSQL

/-- Go `command` interface (schema.go pool elements) as a closed variant set;
`custom` is the caller-supplied command escape hatch. -/
inductive Cmd where
  | createTable (c : createTableCommand)
  | dropTable (c : dropTableCommand)
  | renameTable (c : renameTableCommand)
  | alterTable (c : alterTableCommand)
  | custom (sql : String)
  deriving DecidableEq, Repr

/-- Go `command.toSQL` dispatch. -/
def Cmd.toSQL : Cmd → String
  | .createTable c => c.toSQL
  | .dropTable c => c.toSQL
  | .renameTable c => c.toSQL
  | .alterTable c => c.toSQL
  | .custom sql => sql

/-- Go `Schema` (schema.go): the ordered command pool built by a migration. -/
structure Schema where
  pool : List Cmd := []
  deriving DecidableEq, Repr

/-- Go `Migration` (migration.go): the up/down producers are pure functions
of no input, modelled by the Schema value they return. -/
structure Migration where
  Name : String := ""
  Up : Schema := {}
  Down : Schema := {}
  Transaction : Bool := false
  deriving DecidableEq, Repr

/-- The error values of migrator.go, plus a constructor carrying a verbatim
database error string and one for the wrapped table-creation failure. -/
inductive Err where
  | tableNotExists
  | noMigrationDefined
  | emptyRollbackStack
  | missingMigrationName
  | noSQLCommandsToRun
  | duplicated (name : String)
  | dbErr (msg : String)
  | tableCreateFailed (msg : String)
  deriving DecidableEq, Repr

/-- Go `migrationEntry` (migrator.go): one tracking-table row. The applied
timestamp is represented by the row's position in the state's list, which is
kept in insertion order (equal to `applied_at` ascending). `id` and `batch`
are Go uint64 values, carried as Nat; the one operation on them that can
overflow, the `m.batch() + 1` computed by Migrate, wraps explicitly mod
`uint64Mod` there. -/
structure MigrationEntry where
  id : Nat
  name : String
  batch : Nat
  deriving DecidableEq, Repr

/-- The tracking-table state: rows in applied order, and the next
auto-increment id. -/
structure DBState where
  rows : List MigrationEntry
  nextId : Nat
  deriving DecidableEq, Repr

/-- The database collaborator as oracles: the presence probe
`SELECT * FROM <table>`, the executed-rows query, transaction begin/commit,
and statement execution (sql text and parameter list), each yielding
`none` on success or `some msg` on error. -/
structure Env where
  probe : Option String
  fetchErr : Option String
  beginErr : Option String
  commitErr : Option String
  exec : String → List Nat → Option String

/-- Observable transaction-level events of one `Migration.exec` call. -/
inductive TxEvent where
  | beginTx
  | stmt (sql : String)
  | rollbackTx
  | commitTx
  deriving DecidableEq, Repr

/-- Go `run` (migration.go): renders and executes each command in order;
an empty rendering aborts with ErrNoSQLCommandsToRun, an execution error is
returned verbatim. Returns the successfully executed statements and the
first error. The optional logging callback of the source only prints the
statement and does not affect the result, so it is not modelled. -/
def run (env : Env) : List Cmd → List String × Option Err
  | [] => ([], none)
  | c :: rest =>
    let sql := c.toSQL
    if sql = "" then ([], some Err.noSQLCommandsToRun)
    else
      match env.exec sql [] with
      | some e => ([], some (Err.dbErr e))
      | none =>
        let r := run env rest
        (sql :: r.1, r.2)

/-- Go `runInTransaction` (migration.go): begin; run; on error roll back and
return that error; otherwise commit and return the commit error (with no
further rollback). Returns the event trace and the resulting error. -/
def runInTransaction (env : Env) (commands : List Cmd) : List TxEvent × Option Err :=
  match env.beginErr with
  | some e => ([], some (Err.dbErr e))
  | none =>
    let r := run env commands
    let evs := TxEvent.beginTx :: r.1.map TxEvent.stmt
    match r.2 with
    | some e => (evs ++ [TxEvent.rollbackTx], some e)
    | none =>
      match env.commitErr with
      | some e => (evs ++ [TxEvent.commitTx], some (Err.dbErr e))
      | none => (evs ++ [TxEvent.commitTx], none)

/-- Go `Migration.exec` (migration.go): dispatches on the Transaction flag. -/
def Migration.exec (env : Env) (m : Migration) (commands : List Cmd) :
    List TxEvent × Option Err :=
  if m.Transaction then runInTransaction env commands
  else
    let r := run env commands
    (r.1.map TxEvent.stmt, r.2)

/-- Go `migrationTable` constant. -/
def migrationTable : String := "migrations"

/-- Go `Migrator` (migrator.go); the `executed` cache is per call, passed
explicitly below. -/
structure Migrator where
  TableName : String := ""
  Pool : List Migration := []
  deriving DecidableEq, Repr

/-- Go `Migrator.table` (migrator.go). -/
def Migrator.table (m : Migrator) : String :=
  if m.TableName = "" then migrationTable else m.TableName

/-- Go `Migrator.checkMigrationPool` loop body (migrator.go): walks the pool
keeping the names seen so far; an empty name or a name already seen fails. -/
def checkMigrationPoolAux : List Migration → List String → Option Err
  | [], _ => none
  | item :: rest, names =>
    if item.Name = "" then some Err.missingMigrationName
    else if list.has names item.Name then some (Err.duplicated item.Name)
    else checkMigrationPoolAux rest (names ++ [item.Name])

/-- Go `Migrator.checkMigrationPool` (migrator.go). -/
def checkMigrationPool (pool : List Migration) : Option Err :=
  checkMigrationPoolAux pool []

/-- Go `Migrator.hasTable` (migrator.go): true exactly when the probe query
returned no error — any query error, whatever its cause, reads as absence. -/
def hasTable (env : Env) : Bool :=
  env.probe.isNone

/-- The fixed tracking-table DDL emitted by `createMigrationTable`. -/
def createTableSQL (table : String) : String :=
  "CREATE TABLE " ++ table
    ++ " (id int(10) unsigned NOT NULL AUTO_INCREMENT PRIMARY KEY, "
    ++ "name varchar(255) COLLATE utf8mb4_unicode_ci NOT NULL, "
    ++ "batch int(11) NOT NULL, "
    ++ "applied_at timestamp(6) NULL DEFAULT CURRENT_TIMESTAMP(6)) "
    ++ "ENGINE=InnoDB DEFAULT CHARSET=utf8mb4 COLLATE=utf8mb4_unicode_ci"

/-- Go `Migrator.createMigrationTable` (migrator.go): a no-op when the
presence probe succeeds, otherwise executes the fixed DDL. -/
def createMigrationTable (env : Env) (m : Migrator) : Option String :=
  if hasTable env then none
  else env.exec (createTableSQL m.table) []

/-- The width of Go `uint64`: arithmetic on batch numbers wraps modulo this. -/
def uint64Mod : Nat := 2 ^ 64

/-- Go `Migrator.batch` (migrator.go): the maximum batch among executed
entries, 0 when none. Comparisons of stored uint64 values cannot overflow,
so no wrapping is needed here. -/
def batchMax (executed : List MigrationEntry) : Nat :=
  executed.foldl (fun b e => if e.batch > b then e.batch else b) 0

/-- Go `Migrator.isExecuted` (migrator.go). -/
def isExecuted (executed : List MigrationEntry) (name : String) : Bool :=
  executed.any (fun e => e.name = name)

/-- Go `Migrator.lastBatchExecuted` (migrator.go): entries of the maximum
batch, in load (chronological) order. -/
def lastBatchExecuted (executed : List MigrationEntry) : List MigrationEntry :=
  executed.filter (fun e => e.batch = batchMax executed)

/-- The tracking-row INSERT built by `Migrate` (migrator.go line 88). -/
def insertSQL (table name : String) (batch : Nat) : String :=
  "INSERT INTO `" ++ table ++ "` (`name`, `batch`) VALUES (\"" ++ name ++ "\", "
    ++ toString batch ++ ")"

/-- The parameterized tracking-row DELETE of Rollback/Revert (migrator.go). -/
def deleteSQL (table : String) : String :=
  "DELETE FROM " ++ table ++ " WHERE id = ?"

/-- The loop of `Migrator.Migrate` (migrator.go lines 74-97): skip executed
names, require a non-empty up pool, execute, insert the tracking row, then
record the name; any failure returns the names recorded so far with the
error. `executed` is the cache snapshot fetched before the loop. -/
def migrateLoop (env : Env) (table : String) (batch : Nat)
    (executed : List MigrationEntry) :
    List Migration → DBState → List String → DBState × List String × Option Err
  | [], db, migrated => (db, migrated, none)
  | item :: rest, db, migrated =>
    if isExecuted executed item.Name then
      migrateLoop env table batch executed rest db migrated
    else if item.Up.pool.length = 0 then (db, migrated, some Err.noSQLCommandsToRun)
    else
      match (Migration.exec env item item.Up.pool).2 with
      | some e => (db, migrated, some e)
      | none =>
        match env.exec (insertSQL table item.Name batch) [] with
        | some e => (db, migrated, some (Err.dbErr e))
        | none =>
          migrateLoop env table batch executed rest
            { rows := db.rows ++ [{ id := db.nextId, name := item.Name, batch := batch }],
              nextId := db.nextId + 1 }
            (migrated ++ [item.Name])

/-- Go `Migrator.Migrate` (migrator.go): guards, table creation, cache load,
then the migration loop with batch = max existing + 1, computed in Go on a
uint64 and therefore wrapping modulo 2^64 (explicit `% uint64Mod` here). -/
def Migrator.Migrate (m : Migrator) (env : Env) (db : DBState) :
    DBState × List String × Option Err :=
  if m.Pool.length = 0 then (db, [], some Err.noMigrationDefined)
  else
    match checkMigrationPool m.Pool with
    | some e => (db, [], some e)
    | none =>
      match createMigrationTable env m with
      | some e => (db, [], some (Err.tableCreateFailed e))
      | none =>
        match env.fetchErr with
        | some e => (db, [], some (Err.dbErr e))
        | none =>
          migrateLoop env m.table ((batchMax db.rows + 1) % uint64Mod) db.rows m.Pool db []

/-- The inner pool scan of Rollback/Revert (migrator.go): for one executed
entry, walk the given (already reversed) pool; every item whose name matches
runs its down schema, deletes the tracking row by id, and records the name;
errors abort. `Sum.inl` continues the outer loop, `Sum.inr` aborts. -/
def revertEntry (env : Env) (table : String) (entry : MigrationEntry) :
    List Migration → DBState → List String →
    (DBState × List String) ⊕ (DBState × List String × Err)
  | [], db, reverted => Sum.inl (db, reverted)
  | item :: rest, db, reverted =>
    if item.Name = entry.name then
      if item.Down.pool.length = 0 then Sum.inr (db, reverted, Err.noSQLCommandsToRun)
      else
        match (Migration.exec env item item.Down.pool).2 with
        | some e => Sum.inr (db, reverted, e)
        | none =>
          match env.exec (deleteSQL table) [entry.id] with
          | some e => Sum.inr (db, reverted, Err.dbErr e)
          | none =>
            revertEntry env table entry rest
              { rows := db.rows.filter (fun r => r.id ≠ entry.id), nextId := db.nextId }
              (reverted ++ [entry.name])
    else revertEntry env table entry rest db reverted

/-- The outer loop of Rollback/Revert (migrator.go): walks the candidate
entries (already reversed into reverse chronological order); each entry
scans the pool in reverse declared order via `revertEntry`. -/
def revertLoop (env : Env) (table : String) (pool : List Migration) :
    List MigrationEntry → DBState → List String → DBState × List String × Option Err
  | [], db, reverted => (db, reverted, none)
  | entry :: rest, db, reverted =>
    match revertEntry env table entry pool.reverse db reverted with
    | Sum.inl (db2, reverted2) => revertLoop env table pool rest db2 reverted2
    | Sum.inr (db2, reverted2, e) => (db2, reverted2, some e)

/-- Go `Migrator.Rollback` (migrator.go): guards, then reverts the entries
of the maximum batch in reverse chronological order. -/
def Migrator.Rollback (m : Migrator) (env : Env) (db : DBState) :
    DBState × List String × Option Err :=
  if m.Pool.length = 0 then (db, [], some Err.noMigrationDefined)
  else
    match checkMigrationPool m.Pool with
    | some e => (db, [], some e)
    | none =>
      if hasTable env = false then (db, [], some Err.tableNotExists)
      else
        match env.fetchErr with
        | some e => (db, [], some (Err.dbErr e))
        | none =>
          if db.rows.length = 0 then (db, [], some Err.emptyRollbackStack)
          else revertLoop env m.table m.Pool (lastBatchExecuted db.rows).reverse db []

/-- Go `Migrator.Revert` (migrator.go): like Rollback but over the whole
executed history. -/
def Migrator.Revert (m : Migrator) (env : Env) (db : DBState) :
    DBState × List String × Option Err :=
  if m.Pool.length = 0 then (db, [], some Err.noMigrationDefined)
  else
    match checkMigrationPool m.Pool with
    | some e => (db, [], some e)
    | none =>
      if hasTable env = false then (db, [], some Err.tableNotExists)
      else
        match env.fetchErr with
        | some e => (db, [], some (Err.dbErr e))
        | none =>
          if db.rows.length = 0 then (db, [], some Err.emptyRollbackStack)
          else revertLoop env m.table m.Pool db.rows.reverse db []

/-- The entries one `Migrate` call appends for the given migrated names:
consecutive ids from `startId`, all with the same batch. -/
def newEntries (startId batch : Nat) : List String → List MigrationEntry
  | [] => []
  | n :: ns => { id := startId, name := n, batch := batch } :: newEntries (startId + 1) batch ns

/-- An empty tracking table. -/
def dbEmpty : DBState := { rows := [], nextId := 1 }

/-- A database in which every operation succeeds. -/
def envOk : Env :=
  { probe := none, fetchErr := none, beginErr := none, commitErr := none,
    exec := fun _ _ => none }

/-- A database in which executing exactly the statement `bad` fails with
`msg` and everything else succeeds. -/
def envFailOn (bad msg : String) : Env :=
  { probe := none, fetchErr := none, beginErr := none, commitErr := none,
    exec := fun s _ => if s = bad then some msg else none }

/-- A database whose presence probe fails with a transient connection error
while plain statement execution works. -/
def envProbeFail : Env := { envOk with probe := some "connection reset by peer" }

/-- A two-migration pool whose second migration's up statement will fail. -/
def mTwo : Migrator :=
  { Pool := [ { Name := "m1", Up := { pool := [Cmd.custom "SQL1"] } },
              { Name := "m2", Up := { pool := [Cmd.custom "SQL2"] } } ] }

/-- A one-migration pool with a working down schema. -/
def mGhost : Migrator :=
  { Pool := [ { Name := "m1", Down := { pool := [Cmd.custom "D1"] } } ] }

/-- A tracking table holding one entry whose name is absent from `mGhost`. -/
def dbGhost : DBState := { rows := [{ id := 1, name := "ghost", batch := 5 }], nextId := 2 }

/-- A two-migration pool with working down schemas. -/
def mRoll : Migrator :=
  { Pool := [ { Name := "a", Down := { pool := [Cmd.custom "DA"] } },
              { Name := "b", Down := { pool := [Cmd.custom "DB2"] } } ] }

/-- A single-migration pool with a working up schema. -/
def mUp : Migrator :=
  { Pool := [ { Name := "m1", Up := { pool := [Cmd.custom "SQL1"] } } ] }

/-- A tracking table whose only entry already carries the maximum uint64
batch value, so the next batch Migrate assigns wraps to 0. -/
def dbWrap : DBState :=
  { rows := [{ id := 1, name := "old", batch := uint64Mod - 1 }], nextId := 2 }

/-- Two executed entries in two batches. -/
def dbRoll : DBState :=
  { rows := [{ id := 1, name := "a", batch := 1 }, { id := 2, name := "b", batch := 2 }],
    nextId := 3 }

theorem str_append_eq_empty_iff (s t : String) : s ++ t = "" ↔ s = "" ∧ t = "" := by
  constructor
  · intro h
    have hd := congrArg String.data h
    simp only [String.data_append] at hd
    have hnil : s.data ++ t.data = [] := by simpa using hd
    have h12 := List.append_eq_nil.mp hnil
    exact ⟨String.ext (by simpa using h12.1), String.ext (by simpa using h12.2)⟩
  · rintro ⟨rfl, rfl⟩
    rfl

theorem list_has_iff_mem (l : list) (s : String) : l.has s = true ↔ s ∈ l := by
  induction l with
  | nil => simp [list.has]
  | cons x xs ih =>
    simp only [list.has]
    by_cases hx : x = s
    · subst hx
      simp
    · rw [if_neg hx, ih]
      constructor
      · exact fun h => List.mem_cons_of_mem _ h
      · intro h
        rcases List.mem_cons.mp h with h1 | h2
        · exact absurd h1.symm hx
        · exact h2

theorem list_has_eq_true (l : list) (s : String) (h : s ∈ l) : l.has s = true :=
  (list_has_iff_mem l s).mpr h

theorem list_has_eq_false (l : list) (s : String) (h : s ∉ l) : l.has s = false := by
  cases hv : l.has s
  · rfl
  · exact absurd ((list_has_iff_mem l s).mp hv) h

/-- C10: Key rendering is total over arbitrary type strings: render returns
the empty string exactly when the column list is empty (regardless of name
or type), and any type whose uppercase form is not PRIMARY or UNIQUE is
silently dropped, producing a plain KEY clause. -/
theorem Key_render_total (k : Key) :
    (k.render = "" ↔ k.Columns = [])
    ∧ (k.Columns ≠ [] → strToUpper k.Typ ∉ (["PRIMARY", "UNIQUE"] : List String) →
        k.render = (if k.Name ≠ "" then "KEY" ++ " `" ++ k.Name ++ "`" else "KEY")
          ++ " (`" ++ String.intercalate "`, `" k.Columns ++ "`)") := by
  constructor
  · constructor
    · intro h
      by_contra hc
      have hlen : ¬ k.Columns.length = 0 := by simpa using hc
      rw [Key.render, if_neg hlen] at h
      have h2 := ((str_append_eq_empty_iff _ _).mp h).2
      exact absurd h2 (by decide)
    · intro h
      simp [Key.render, h]
  · intro hne hmem
    have hlen : ¬ k.Columns.length = 0 := by simpa using hne
    have hhas : keyTypes.has (strToUpper k.Typ) = false := list_has_eq_false _ _ hmem
    rw [Key.render, if_neg hlen, hhas]
    by_cases hn : k.Name = ""
    · simp [hn, String.empty_append]
    · simp [hn, String.empty_append, String.append_assoc]

/-- C8: for a Foreign value with non-empty key, column, reference table and
reference column, render emits an ON DELETE or ON UPDATE clause only when the
uppercased action is in the whitelist {SET NULL, CASCADE, RESTRICT, NO ACTION,
SET DEFAULT} (unmatched values are omitted entirely), and when both clauses
are present ON DELETE precedes ON UPDATE. -/
theorem Foreign_render_actions (f : Foreign)
    (hk : f.Key ≠ "") (hc : f.Column ≠ "") (ho : f.On ≠ "") (hr : f.Reference ≠ "") :
    f.render =
      "CONSTRAINT `" ++ f.Key ++ "` FOREIGN KEY (`" ++ f.Column ++ "`) REFERENCES `"
        ++ f.On ++ "` (`" ++ f.Reference ++ "`)"
      ++ (if strToUpper f.OnDelete
            ∈ (["SET NULL", "CASCADE", "RESTRICT", "NO ACTION", "SET DEFAULT"] : List String)
          then " ON DELETE " ++ strToUpper f.OnDelete else "")
      ++ (if strToUpper f.OnUpdate
            ∈ (["SET NULL", "CASCADE", "RESTRICT", "NO ACTION", "SET DEFAULT"] : List String)
          then " ON UPDATE " ++ strToUpper f.OnUpdate else "") := by
  have hguard : ¬ (f.Key = "" ∨ f.Column = "" ∨ f.On = "" ∨ f.Reference = "") := by
    simp [hk, hc, ho, hr]
  rw [Foreign.render, if_neg hguard]
  by_cases hd : strToUpper f.OnDelete
      ∈ (["SET NULL", "CASCADE", "RESTRICT", "NO ACTION", "SET DEFAULT"] : List String)
  · have hdh : referenceOptions.has (strToUpper f.OnDelete) = true := list_has_eq_true _ _ hd
    by_cases hu : strToUpper f.OnUpdate
        ∈ (["SET NULL", "CASCADE", "RESTRICT", "NO ACTION", "SET DEFAULT"] : List String)
    · have huh : referenceOptions.has (strToUpper f.OnUpdate) = true := list_has_eq_true _ _ hu
      simp [-String.reduceAppend, hdh, huh, hd, hu, String.append_assoc]
    · have huh : referenceOptions.has (strToUpper f.OnUpdate) = false := list_has_eq_false _ _ hu
      simp [-String.reduceAppend, hdh, huh, hd, hu, String.append_assoc, String.append_empty]
  · have hdh : referenceOptions.has (strToUpper f.OnDelete) = false := list_has_eq_false _ _ hd
    by_cases hu : strToUpper f.OnUpdate
        ∈ (["SET NULL", "CASCADE", "RESTRICT", "NO ACTION", "SET DEFAULT"] : List String)
    · have huh : referenceOptions.has (strToUpper f.OnUpdate) = true := list_has_eq_true _ _ hu
      simp [-String.reduceAppend, hdh, huh, hd, hu, String.append_assoc, String.append_empty]
    · have huh : referenceOptions.has (strToUpper f.OnUpdate) = false := list_has_eq_false _ _ hu
      simp [-String.reduceAppend, hdh, huh, hd, hu, String.append_assoc, String.append_empty]

/-- Witness for C8 at a concrete input: an invalid OnDelete is omitted and
OnUpdate "cascade" renders ON UPDATE CASCADE. -/
theorem Foreign_render_actions_witness :
    Foreign.render
        { Key := "posts_user_id_foreign", Column := "user_id", Reference := "id",
          On := "users", OnUpdate := "cascade", OnDelete := "invalid-value" }
      = "CONSTRAINT `posts_user_id_foreign` FOREIGN KEY (`user_id`) REFERENCES `users` (`id`)"
        ++ " ON UPDATE CASCADE" :=
  (Foreign_render_actions
    { Key := "posts_user_id_foreign", Column := "user_id", Reference := "id",
      On := "users", OnUpdate := "cascade", OnDelete := "invalid-value" }
    (by decide) (by decide) (by decide) (by decide)).trans (by decide)

/-- Counterexample to C6 as stated: dropTableCommand and renameTableCommand
render non-empty SQL even when the table name is empty, rather than returning
the empty string. -/
theorem dropTable_renameTable_render_without_name :
    dropTableCommand.toSQL ⟨"", false, ""⟩ = "DROP TABLE ``"
    ∧ renameTableCommand.toSQL ⟨"", ""⟩ = "RENAME TABLE `` TO ``"
    ∧ ¬ ("DROP TABLE ``" = "") ∧ ¬ ("RENAME TABLE `` TO ``" = "") :=
  ⟨by decide, by decide, by decide, by decide⟩

/-- C6 (amended): every command variant except DropTable and RenameTable
returns empty text when a required identifier is missing (empty table or
column name, nil column type, empty column list, empty sub-command list);
DropTable and RenameTable render non-empty SQL unconditionally. -/
theorem command_empty_on_missing_required :
    (∀ cols idx fr eng ch col com,
      createTableCommand.toSQL
        ⟨{ Name := "", columns := cols, indexes := idx, foreigns := fr, Engine := eng,
           Charset := ch, Collation := col, Comment := com }⟩ = "")
    ∧ (∀ name, alterTableCommand.toSQL ⟨name, []⟩ = "")
    ∧ (∀ pool, alterTableCommand.toSQL ⟨"", pool⟩ = "")
    ∧ (∀ col after first, AddColumnCommand.ToSQL ⟨"", col, after, first⟩ = "")
    ∧ (∀ name after first, AddColumnCommand.ToSQL ⟨name, none, after, first⟩ = "")
    ∧ (∀ n, RenameColumnCommand.ToSQL ⟨"", n⟩ = "")
    ∧ (∀ o, RenameColumnCommand.ToSQL ⟨o, ""⟩ = "")
    ∧ (∀ col, ModifyColumnCommand.ToSQL ⟨"", col⟩ = "")
    ∧ (∀ name, ModifyColumnCommand.ToSQL ⟨name, none⟩ = "")
    ∧ (∀ t col, ChangeColumnCommand.ToSQL ⟨"", t, col⟩ = "")
    ∧ (∀ f col, ChangeColumnCommand.ToSQL ⟨f, "", col⟩ = "")
    ∧ (Command.ToSQL (.dropColumn "") = "")
    ∧ (∀ cols, Command.ToSQL (.addIndex "" cols) = "")
    ∧ (∀ name, Command.ToSQL (.addIndex name []) = "")
    ∧ (Command.ToSQL (.dropIndex "") = "")
    ∧ (∀ c r o u d2, Command.ToSQL (.addForeign ⟨"", c, r, o, u, d2⟩) = "")
    ∧ (Command.ToSQL (.dropForeign "") = "")
    ∧ (∀ cols, Command.ToSQL (.addUniqueIndex "" cols) = "")
    ∧ (∀ k, Command.ToSQL (.addUniqueIndex k []) = "")
    ∧ (Command.ToSQL (.addPrimaryIndex "") = "")
    ∧ (∀ soft, dropTableCommand.toSQL ⟨"", soft, ""⟩ ≠ "")
    ∧ (∀ old new, renameTableCommand.toSQL ⟨old, new⟩ ≠ "") := by
  refine ⟨?_, ?_, ?_, ?_, ?_, ?_, ?_, ?_, ?_, ?_, ?_, ?_, ?_, ?_, ?_, ?_, ?_, ?_, ?_, ?_, ?_, ?_⟩
  · intro cols idx fr eng ch col com
    simp [createTableCommand.toSQL]
  · intro name
    simp [alterTableCommand.toSQL]
  · intro pool
    simp [alterTableCommand.toSQL]
  · intro col after first
    cases col <;> simp [AddColumnCommand.ToSQL]
  · intro name after first
    simp [AddColumnCommand.ToSQL]
  · intro n
    simp [RenameColumnCommand.ToSQL]
  · intro o
    simp [RenameColumnCommand.ToSQL]
  · intro col
    cases col <;> simp [ModifyColumnCommand.ToSQL]
  · intro name
    simp [ModifyColumnCommand.ToSQL]
  · intro t col
    cases col <;> simp [ChangeColumnCommand.ToSQL]
  · intro f col
    cases col <;> simp [ChangeColumnCommand.ToSQL]
  · decide
  · intro cols
    simp [Command.ToSQL]
  · intro name
    simp [Command.ToSQL]
  · decide
  · intro c r o u d2
    simp [Command.ToSQL, Foreign.render]
  · decide
  · intro cols
    simp [Command.ToSQL]
  · intro k
    simp [Command.ToSQL]
  · decide
  · intro soft
    cases soft <;> decide
  · intro old new h
    have h2 := ((str_append_eq_empty_iff _ _).mp h).2
    exact absurd h2 (by decide)

/-- Counterexample to C7 as stated: the Integer variant emits its non-empty
default verbatim (DEFAULT 0), not single-quoted. -/
theorem Integer_default_unquoted :
    Integer.buildRow { Default := "0" } = "int NOT NULL DEFAULT 0"
    ∧ ¬ Integer.buildRow { Default := "0" } = "int NOT NULL DEFAULT '0'" :=
  ⟨by decide, by decide⟩

/-- C7 (amended): buildDefaultForString quotes the default, leaving
parenthesized expressions unquoted and normalizing the sentinels <empty> and
<nil> to an explicit empty string, and an absent default emits nothing; the
String, Text, JSON and Enum variants render their default through it, while
Integer, Floatable, Timable, Bit and Binary emit non-empty defaults verbatim,
unquoted. -/
theorem default_rendering_by_variant :
    (buildDefaultForString "" = "")
    ∧ (∀ v : String, v ≠ "" → v.data.head? = some '(' → v.data.getLast? = some ')' →
        buildDefaultForString v = " DEFAULT " ++ v)
    ∧ (buildDefaultForString "<empty>" = " DEFAULT ''")
    ∧ (buildDefaultForString "<nil>" = " DEFAULT ''")
    ∧ (∀ v : String, v ≠ "" → ¬ (v.data.head? = some '(' ∧ v.data.getLast? = some ')') →
        v ≠ "<empty>" → v ≠ "<nil>" →
        buildDefaultForString v = " DEFAULT '" ++ v ++ "'")
    ∧ (∀ d, StringCol.buildRow { Default := d }
        = "varchar COLLATE utf8mb4_unicode_ci NOT NULL" ++ buildDefaultForString d)
    ∧ (∀ d, Text.buildRow { Default := d }
        = "text COLLATE utf8mb4_unicode_ci NOT NULL" ++ buildDefaultForString d)
    ∧ (∀ d, JSON.buildRow { Default := d } = "json NOT NULL" ++ buildDefaultForString d)
    ∧ (∀ d, Enum.buildRow { Default := d } = "enum('') NOT NULL" ++ buildDefaultForString d)
    ∧ (∀ d, d ≠ "" → Integer.buildRow { Default := d } = "int NOT NULL DEFAULT " ++ d)
    ∧ (∀ d, d ≠ "" → Floatable.buildRow { Default := d } = "float NOT NULL DEFAULT " ++ d)
    ∧ (∀ d, d ≠ "" → Timable.buildRow { Default := d } = "timestamp NOT NULL DEFAULT " ++ d)
    ∧ (∀ d, d ≠ "" → Bit.buildRow { Default := d } = "bit NOT NULL DEFAULT " ++ d)
    ∧ (∀ d, d ≠ "" → Binary.buildRow { Default := d } = "varbinary NOT NULL DEFAULT " ++ d)
    ∧ (Integer.buildRow {} = "int NOT NULL") := by
  refine ⟨by decide, ?_, by decide, by decide, ?_, ?_, ?_, ?_, ?_, ?_, ?_, ?_, ?_, ?_, by decide⟩
  · intro v hv h1 h2
    rw [buildDefaultForString, if_neg hv, if_pos ⟨h1, h2⟩]
  · intro v hv hpar he hn
    have hsent : ¬ (v = "<empty>" ∨ v = "<nil>") := by simp [he, hn]
    rw [buildDefaultForString, if_neg hv, if_neg hpar, if_neg hsent]
  · intro d
    simp [StringCol.buildRow]
  · intro d
    simp [Text.buildRow]
  · intro d
    simp [JSON.buildRow]
  · intro d
    have hi : String.intercalate "', '" ([] : List String) = "" := by decide
    simp [Enum.buildRow, hi]
  · intro d hd
    simp [Integer.buildRow, hd]
  · intro d hd
    simp [Floatable.buildRow, hd]
  · intro d hd
    simp [Timable.buildRow, hd]
  · intro d hd
    simp [Bit.buildRow, hd]
  · intro d hd
    simp [Binary.buildRow, hd]

theorem migrateLoop_spec (env : Env) (table : String) (batch : Nat)
    (executed : List MigrationEntry) :
    ∀ (pool : List Migration) (db : DBState) (migrated : List String),
      ∃ t err, migrateLoop env table batch executed pool db migrated
        = ({ rows := db.rows ++ newEntries db.nextId batch t, nextId := db.nextId + t.length },
           migrated ++ t, err) := by
  intro pool
  induction pool with
  | nil =>
    intro db migrated
    exact ⟨[], none, by simp [migrateLoop, newEntries]⟩
  | cons item rest ih =>
    intro db migrated
    cases hex : isExecuted executed item.Name with
    | true =>
      obtain ⟨t, err, ht⟩ := ih db migrated
      exact ⟨t, err, by simp [migrateLoop, hex, ht]⟩
    | false =>
      by_cases hup : item.Up.pool.length = 0
      · exact ⟨[], some Err.noSQLCommandsToRun, by simp [migrateLoop, hex, hup, newEntries]⟩
      · cases hex2 : (Migration.exec env item item.Up.pool).2 with
        | some e =>
          exact ⟨[], some e, by simp [migrateLoop, hex, hup, hex2, newEntries]⟩
        | none =>
          cases hins : env.exec (insertSQL table item.Name batch) [] with
          | some e =>
            exact ⟨[], some (Err.dbErr e), by simp [migrateLoop, hex, hup, hex2, hins, newEntries]⟩
          | none =>
            obtain ⟨t, err, ht⟩ := ih
              { rows := db.rows ++ [{ id := db.nextId, name := item.Name, batch := batch }],
                nextId := db.nextId + 1 }
              (migrated ++ [item.Name])
            refine ⟨item.Name :: t, err, ?_⟩
            rw [migrateLoop]
            simp only [hex, Bool.false_eq_true, if_false, hup, if_neg hup, hex2, hins]
            rw [ht]
            simp [newEntries, List.append_assoc, Nat.add_assoc, Nat.add_comm 1 t.length]

theorem run_append_ok (env : Env) (pre rest : List Cmd)
    (hpre : ∀ x ∈ pre, x.toSQL ≠ "" ∧ env.exec x.toSQL [] = none) :
    run env (pre ++ rest) = (pre.map Cmd.toSQL ++ (run env rest).1, (run env rest).2) := by
  induction pre with
  | nil => simp [run]
  | cons c cs ih =>
    have hc := hpre c (List.mem_cons_self c cs)
    have ihr := ih (fun x hx => hpre x (List.mem_cons_of_mem c hx))
    simp [run, hc.1, hc.2, ihr]

theorem run_fail_at (env : Env) (pre post : List Cmd) (c : Cmd) (e : String)
    (hpre : ∀ x ∈ pre, x.toSQL ≠ "" ∧ env.exec x.toSQL [] = none)
    (hc : c.toSQL ≠ "") (he : env.exec c.toSQL [] = some e) :
    run env (pre ++ c :: post) = (pre.map Cmd.toSQL, some (Err.dbErr e)) := by
  rw [run_append_ok env pre (c :: post) hpre]
  simp [run, hc, he]

theorem run_all_ok (env : Env) (cmds : List Cmd)
    (h : ∀ x ∈ cmds, x.toSQL ≠ "" ∧ env.exec x.toSQL [] = none) :
    run env cmds = (cmds.map Cmd.toSQL, none) := by
  have := run_append_ok env cmds [] h
  simpa [run] using this

/-- C5: for a command sequence run by Migration.exec, when Transaction is
true any command error rolls the transaction back and returns that error, and
a commit failure returns the commit error with no further rollback; when
Transaction is false the first command failure terminates the sequence
immediately and the statements already executed are not undone. -/
theorem Migration_exec_semantics (env : Env) (mg : Migration)
    (pre post : List Cmd) (c : Cmd) (e : String)
    (hpre : ∀ x ∈ pre, x.toSQL ≠ "" ∧ env.exec x.toSQL [] = none)
    (hc : c.toSQL ≠ "") (he : env.exec c.toSQL [] = some e)
    (hb : env.beginErr = none) :
    (mg.Transaction = true →
      Migration.exec env mg (pre ++ c :: post)
        = (TxEvent.beginTx :: pre.map (fun x => TxEvent.stmt x.toSQL) ++ [TxEvent.rollbackTx],
           some (Err.dbErr e)))
    ∧ (mg.Transaction = false →
      Migration.exec env mg (pre ++ c :: post)
        = (pre.map (fun x => TxEvent.stmt x.toSQL), some (Err.dbErr e)))
    ∧ (∀ cmds : List Cmd, (∀ x ∈ cmds, x.toSQL ≠ "" ∧ env.exec x.toSQL [] = none) →
        ∀ ce, env.commitErr = some ce → mg.Transaction = true →
          Migration.exec env mg cmds
            = (TxEvent.beginTx :: cmds.map (fun x => TxEvent.stmt x.toSQL) ++ [TxEvent.commitTx],
               some (Err.dbErr ce))
          ∧ TxEvent.rollbackTx ∉ (Migration.exec env mg cmds).1) := by
  have hfail := run_fail_at env pre post c e hpre hc he
  refine ⟨?_, ?_, ?_⟩
  · intro ht
    simp [Migration.exec, ht, runInTransaction, hb, hfail, List.map_map, Function.comp]
  · intro ht
    simp [Migration.exec, ht, hfail, List.map_map, Function.comp]
  · intro cmds hok ce hce ht
    have hrun := run_all_ok env cmds hok
    have heq : Migration.exec env mg cmds
        = (TxEvent.beginTx :: cmds.map (fun x => TxEvent.stmt x.toSQL) ++ [TxEvent.commitTx],
           some (Err.dbErr ce)) := by
      simp [Migration.exec, ht, runInTransaction, hb, hrun, hce, List.map_map, Function.comp]
    refine ⟨heq, ?_⟩
    rw [heq]
    simp

/-- Witness for C5 at a concrete input: a failing second statement inside a
transaction yields begin, the first statement, then rollback, with the error
returned. -/
theorem Migration_exec_semantics_witness :
    Migration.exec (envFailOn "BAD" "boom") { Name := "w", Transaction := true }
        [Cmd.custom "OK1", Cmd.custom "BAD"]
      = ([TxEvent.beginTx, TxEvent.stmt "OK1", TxEvent.rollbackTx], some (Err.dbErr "boom")) :=
  ((Migration_exec_semantics (envFailOn "BAD" "boom") { Name := "w", Transaction := true }
      [Cmd.custom "OK1"] [] (Cmd.custom "BAD") "boom"
      (by decide) (by decide) (by decide) (by decide)).1 rfl).trans (by decide)

/-- C9: the tracking-table presence probe treats any query error as table
absence, so whenever the probe fails for any reason (including transient
connection errors), Rollback and Revert return the table-does-not-exist error
without distinguishing the cause. -/
theorem probe_error_reads_as_missing_table (env : Env) (db : DBState) (m : Migrator) (e : String)
    (hp : env.probe = some e) (h0 : ¬ m.Pool.length = 0)
    (h1 : checkMigrationPool m.Pool = none) :
    hasTable env = false
    ∧ m.Rollback env db = (db, [], some Err.tableNotExists)
    ∧ m.Revert env db = (db, [], some Err.tableNotExists) := by
  have hht : hasTable env = false := by simp [hasTable, hp]
  refine ⟨hht, ?_, ?_⟩
  · simp [Migrator.Rollback, h0, h1, hht]
  · simp [Migrator.Revert, h0, h1, hht]

/-- Witness for C9 at a concrete input: a transient connection error on the
probe makes Rollback return ErrTableNotExists. -/
theorem probe_error_reads_as_missing_table_witness :
    mGhost.Rollback envProbeFail dbGhost = (dbGhost, [], some Err.tableNotExists) :=
  (probe_error_reads_as_missing_table envProbeFail dbGhost mGhost "connection reset by peer"
    (by decide) (by decide) (by decide)).2.1

theorem foldlBatch_ge_init (l : List MigrationEntry) :
    ∀ a : Nat, a ≤ l.foldl (fun b e => if e.batch > b then e.batch else b) a := by
  induction l with
  | nil =>
    intro a
    exact Nat.le_refl a
  | cons e l ih =>
    intro a
    rw [List.foldl_cons]
    refine Nat.le_trans ?_ (ih _)
    split <;> omega

theorem foldlBatch_ge_mem (l : List MigrationEntry) :
    ∀ (a : Nat) (en : MigrationEntry), en ∈ l →
      en.batch ≤ l.foldl (fun b e => if e.batch > b then e.batch else b) a := by
  induction l with
  | nil =>
    intro a en h
    simp at h
  | cons e l ih =>
    intro a en h
    rw [List.foldl_cons]
    rcases List.mem_cons.mp h with h1 | h2
    · subst h1
      refine Nat.le_trans ?_ (foldlBatch_ge_init l _)
      split <;> omega
    · exact ih _ en h2

theorem foldlBatch_le (l : List MigrationEntry) :
    ∀ a n : Nat, a ≤ n → (∀ en ∈ l, en.batch ≤ n) →
      l.foldl (fun b e => if e.batch > b then e.batch else b) a ≤ n := by
  induction l with
  | nil =>
    intro a n ha _
    simpa using ha
  | cons e l ih =>
    intro a n ha h
    rw [List.foldl_cons]
    refine ih _ n ?_ (fun en hen => h en (List.mem_cons_of_mem e hen))
    have := h e (List.mem_cons_self e l)
    split <;> omega

theorem batchMax_le_of (l : List MigrationEntry) (n : Nat) (h : ∀ en ∈ l, en.batch ≤ n) :
    batchMax l ≤ n :=
  foldlBatch_le l 0 n (Nat.zero_le n) h

theorem le_batchMax_of_mem (l : List MigrationEntry) (en : MigrationEntry) (h : en ∈ l) :
    en.batch ≤ batchMax l :=
  foldlBatch_ge_mem l 0 en h

theorem newEntries_batch (b : Nat) :
    ∀ (t : List String) (i : Nat) (en : MigrationEntry),
      en ∈ newEntries i b t → en.batch = b := by
  intro t
  induction t with
  | nil =>
    intro i en h
    simp [newEntries] at h
  | cons n t ih =>
    intro i en h
    rw [newEntries] at h
    rcases List.mem_cons.mp h with h1 | h2
    · rw [h1]
    · exact ih (i + 1) en h2

theorem Migrate_spec (env : Env) (db : DBState) (m : Migrator) :
    ∃ t err, m.Migrate env db
      = ({ rows := db.rows ++ newEntries db.nextId ((batchMax db.rows + 1) % uint64Mod) t,
           nextId := db.nextId + t.length }, t, err) := by
  by_cases h0 : m.Pool.length = 0
  · exact ⟨[], some Err.noMigrationDefined, by simp [Migrator.Migrate, h0, newEntries]⟩
  · cases h1 : checkMigrationPool m.Pool with
    | some e =>
      exact ⟨[], some e, by simp [Migrator.Migrate, h0, h1, newEntries]⟩
    | none =>
      cases h2 : createMigrationTable env m with
      | some e =>
        exact ⟨[], some (Err.tableCreateFailed e),
          by simp [Migrator.Migrate, h0, h1, h2, newEntries]⟩
      | none =>
        cases h3 : env.fetchErr with
        | some e =>
          exact ⟨[], some (Err.dbErr e), by simp [Migrator.Migrate, h0, h1, h2, h3, newEntries]⟩
        | none =>
          obtain ⟨t, err, ht⟩ :=
            migrateLoop_spec env m.table ((batchMax db.rows + 1) % uint64Mod) db.rows m.Pool db []
          exact ⟨t, err, by simp [Migrator.Migrate, h0, h1, h2, h3, ht]⟩

/-- Counterexample to C1 as stated: when the second of two migrations fails,
Migrate returns the non-empty list ["m1"] of migrations applied so far
together with the error, not an empty list. -/
theorem Migrate_partial_list_on_failure :
    mTwo.Migrate (envFailOn "SQL2" "boom") dbEmpty
      = ({ rows := [{ id := 1, name := "m1", batch := 1 }], nextId := 2 },
         ["m1"], some (Err.dbErr "boom"))
    ∧ ¬ (["m1"] : List String) = [] :=
  ⟨by decide, by decide⟩

/-- C1 (amended): if any migration execution or tracking-row insert fails,
Migrate aborts immediately and returns the list of migrations successfully
applied so far (possibly non-empty) paired with the error; the tracking rows
of those migrations remain in place, so nothing applied earlier in the call
is rolled back. -/
theorem Migrate_abort_returns_applied (env : Env) (db : DBState) (m : Migrator) (e : Err)
    (h : (m.Migrate env db).2.2 = some e) :
    m.Migrate env db
      = ({ rows := db.rows ++ newEntries db.nextId ((batchMax db.rows + 1) % uint64Mod)
             (m.Migrate env db).2.1,
           nextId := db.nextId + (m.Migrate env db).2.1.length },
         (m.Migrate env db).2.1, some e) := by
  obtain ⟨t, err, ht⟩ := Migrate_spec env db m
  rw [ht] at h ⊢
  simp only at h ⊢
  rw [h]

/-- Witness for C1 (amended) at the concrete failing input. -/
theorem Migrate_abort_returns_applied_witness :
    mTwo.Migrate (envFailOn "SQL2" "boom") dbEmpty
      = ({ rows := dbEmpty.rows
             ++ newEntries dbEmpty.nextId ((batchMax dbEmpty.rows + 1) % uint64Mod)
             (mTwo.Migrate (envFailOn "SQL2" "boom") dbEmpty).2.1,
           nextId := dbEmpty.nextId + (mTwo.Migrate (envFailOn "SQL2" "boom") dbEmpty).2.1.length },
         (mTwo.Migrate (envFailOn "SQL2" "boom") dbEmpty).2.1, some (Err.dbErr "boom")) :=
  Migrate_abort_returns_applied (envFailOn "SQL2" "boom") dbEmpty mTwo (Err.dbErr "boom")
    (by decide)

/-- Counterexample to C4 as stated: the batch is a Go uint64, so at an
existing maximum batch of 2^64 - 1 the batch Migrate assigns wraps to 0,
which is neither max + 1, nor positive, nor greater than the previous batch. -/
theorem Migrate_batch_wraps_at_uint64_max :
    mUp.Migrate envOk dbWrap
      = ({ rows := [{ id := 1, name := "old", batch := uint64Mod - 1 },
                    { id := 2, name := "m1", batch := 0 }], nextId := 3 },
         ["m1"], none)
    ∧ batchMax dbWrap.rows = uint64Mod - 1
    ∧ ¬ (0 : Nat) = batchMax dbWrap.rows + 1
    ∧ ¬ (0 : Nat) > batchMax dbWrap.rows
    ∧ ¬ 0 < (0 : Nat) :=
  ⟨by decide, by decide, by decide, by decide, by decide⟩

/-- C4 (amended): every tracking row Migrate appends in one call carries
batch number (max existing batch + 1) mod 2^64, the wrapping uint64
successor of the maximum existing batch. Below the wrap point this equals
max + 1 (hence 1 when no entries exist) and is positive, and after a call
that applied at least one migration the next call's batch number is
strictly greater; at an existing maximum of 2^64 - 1 it wraps to 0. -/
theorem Migrate_batch_assignment (env : Env) (db : DBState) (m : Migrator) :
    ((m.Migrate env db).1.rows
      = db.rows ++ newEntries db.nextId ((batchMax db.rows + 1) % uint64Mod)
          (m.Migrate env db).2.1)
    ∧ (∀ en ∈ newEntries db.nextId ((batchMax db.rows + 1) % uint64Mod)
          (m.Migrate env db).2.1,
        en.batch = (batchMax db.rows + 1) % uint64Mod)
    ∧ (batchMax db.rows + 1 < uint64Mod →
        (batchMax db.rows + 1) % uint64Mod = batchMax db.rows + 1
        ∧ 0 < (batchMax db.rows + 1) % uint64Mod)
    ∧ (batchMax db.rows = uint64Mod - 1 → (batchMax db.rows + 1) % uint64Mod = 0)
    ∧ ((m.Migrate env db).2.1 ≠ [] → batchMax db.rows + 2 < uint64Mod →
        (batchMax db.rows + 1) % uint64Mod
          < (batchMax (m.Migrate env db).1.rows + 1) % uint64Mod) := by
  obtain ⟨t, err, ht⟩ := Migrate_spec env db m
  rw [ht]
  refine ⟨rfl, ?_, ?_, ?_, ?_⟩
  · intro en hen
    exact newEntries_batch ((batchMax db.rows + 1) % uint64Mod) t db.nextId en
      (by simpa using hen)
  · intro hlt
    refine ⟨Nat.mod_eq_of_lt hlt, ?_⟩
    rw [Nat.mod_eq_of_lt hlt]
    omega
  · intro heq
    have h64 : 0 < uint64Mod := by
      rw [uint64Mod]
      positivity
    rw [heq]
    have h2 : uint64Mod - 1 + 1 = uint64Mod := by omega
    rw [h2, Nat.mod_self]
  · intro hne hlt2
    have hne2 : t ≠ [] := by simpa using hne
    have hB : (batchMax db.rows + 1) % uint64Mod = batchMax db.rows + 1 :=
      Nat.mod_eq_of_lt (by omega)
    have hle : batchMax (db.rows ++ newEntries db.nextId
          ((batchMax db.rows + 1) % uint64Mod) t)
        ≤ batchMax db.rows + 1 := by
      apply batchMax_le_of
      intro en hen
      rcases List.mem_append.mp hen with h1 | h2
      · exact Nat.le_succ_of_le (le_batchMax_of_mem _ _ h1)
      · rw [newEntries_batch _ _ _ _ h2, hB]
    have hge : batchMax db.rows + 1
        ≤ batchMax (db.rows ++ newEntries db.nextId
            ((batchMax db.rows + 1) % uint64Mod) t) := by
      cases t with
      | nil => exact absurd rfl hne2
      | cons n ts =>
        have hmem :
            ({ id := db.nextId, name := n,
               batch := (batchMax db.rows + 1) % uint64Mod } : MigrationEntry)
            ∈ db.rows ++ newEntries db.nextId
                ((batchMax db.rows + 1) % uint64Mod) (n :: ts) := by
          refine List.mem_append_right _ ?_
          rw [newEntries]
          exact List.mem_cons_self _ _
        have hm := le_batchMax_of_mem _ _ hmem
        simpa [hB] using hm
    have heq2 : batchMax (db.rows ++ newEntries db.nextId
          ((batchMax db.rows + 1) % uint64Mod) t)
        = batchMax db.rows + 1 := by omega
    have hgoal : (batchMax db.rows + 1) % uint64Mod
        < (batchMax (db.rows ++ newEntries db.nextId
              ((batchMax db.rows + 1) % uint64Mod) t) + 1) % uint64Mod := by
      rw [heq2, hB,
        Nat.mod_eq_of_lt (show batchMax db.rows + 1 + 1 < uint64Mod by omega)]
      omega
    simpa using hgoal

theorem isExecuted_append (a b : List MigrationEntry) (n : String) :
    isExecuted (a ++ b) n = (isExecuted a n || isExecuted b n) := by
  simp [isExecuted, List.any_append]

theorem isExecuted_newEntries (b : Nat) :
    ∀ (t : List String) (i : Nat) (n : String), n ∈ t →
      isExecuted (newEntries i b t) n = true := by
  intro t
  induction t with
  | nil =>
    intro i n h
    simp at h
  | cons x ts ih =>
    intro i n h
    rw [newEntries]
    simp only [isExecuted, List.any_cons]
    rcases List.mem_cons.mp h with h1 | h2
    · simp [h1]
    · have hrec := ih (i + 1) n h2
      simp [isExecuted] at hrec
      simp [hrec]

theorem migrateLoop_mig_prefix (env : Env) (table : String) (batch : Nat)
    (executed : List MigrationEntry) (pool : List Migration) (db : DBState)
    (migrated : List String) :
    ∃ t, (migrateLoop env table batch executed pool db migrated).2.1 = migrated ++ t := by
  obtain ⟨t, err, ht⟩ := migrateLoop_spec env table batch executed pool db migrated
  exact ⟨t, by rw [ht]⟩

theorem migrateLoop_success_covers (env : Env) (table : String) (batch : Nat)
    (executed : List MigrationEntry) :
    ∀ (pool : List Migration) (db : DBState) (migrated : List String)
      (db2 : DBState) (mig2 : List String),
      migrateLoop env table batch executed pool db migrated = (db2, mig2, none) →
      ∀ item ∈ pool, isExecuted executed item.Name = true ∨ item.Name ∈ mig2 := by
  intro pool
  induction pool with
  | nil =>
    intro db migrated db2 mig2 h item hitem
    simp at hitem
  | cons it rest ih =>
    intro db migrated db2 mig2 h item hitem
    rw [migrateLoop] at h
    cases hex : isExecuted executed it.Name with
    | true =>
      rw [hex] at h
      simp only [if_true] at h
      rcases List.mem_cons.mp hitem with h1 | h2
      · rw [h1]
        exact Or.inl hex
      · exact ih db migrated db2 mig2 h item h2
    | false =>
      rw [hex] at h
      simp only [Bool.false_eq_true, if_false] at h
      by_cases hup : it.Up.pool.length = 0
      · rw [if_pos hup] at h
        simp at h
      · rw [if_neg hup] at h
        cases hex2 : (Migration.exec env it it.Up.pool).2 with
        | some e =>
          rw [hex2] at h
          simp at h
        | none =>
          rw [hex2] at h
          cases hins : env.exec (insertSQL table it.Name batch) [] with
          | some e =>
            rw [hins] at h
            simp at h
          | none =>
            rw [hins] at h
            have h3 : migrateLoop env table batch executed rest
                { rows := db.rows ++ [{ id := db.nextId, name := it.Name, batch := batch }],
                  nextId := db.nextId + 1 }
                (migrated ++ [it.Name]) = (db2, mig2, none) := h
            rcases List.mem_cons.mp hitem with h1 | h2
            · right
              obtain ⟨t2, ht2⟩ := migrateLoop_mig_prefix env table batch executed rest
                { rows := db.rows ++ [{ id := db.nextId, name := it.Name, batch := batch }],
                  nextId := db.nextId + 1 }
                (migrated ++ [it.Name])
              have hm2 : mig2 = migrated ++ [it.Name] ++ t2 := by
                rw [← ht2, h3]
              rw [h1, hm2]
              simp
            · exact ih _ _ db2 mig2 h3 item h2

theorem migrateLoop_all_executed (env : Env) (table : String) (batch : Nat)
    (executed : List MigrationEntry) :
    ∀ (pool : List Migration) (db : DBState) (migrated : List String),
      (∀ item ∈ pool, isExecuted executed item.Name = true) →
      migrateLoop env table batch executed pool db migrated = (db, migrated, none) := by
  intro pool
  induction pool with
  | nil =>
    intro db migrated _
    rfl
  | cons it rest ih =>
    intro db migrated hall
    rw [migrateLoop, hall it (List.mem_cons_self it rest)]
    simp only [if_true]
    exact ih db migrated (fun item hi => hall item (List.mem_cons_of_mem it hi))

theorem Migrate_unfold_ok (env : Env) (db : DBState) (m : Migrator)
    (h0 : ¬ m.Pool.length = 0) (h1 : checkMigrationPool m.Pool = none)
    (h2 : createMigrationTable env m = none) (h3 : env.fetchErr = none) :
    m.Migrate env db
      = migrateLoop env m.table ((batchMax db.rows + 1) % uint64Mod) db.rows m.Pool db [] := by
  simp [Migrator.Migrate, h0, h1, h2, h3]

theorem Migrate_success_parts (env : Env) (db : DBState) (m : Migrator)
    (h : (m.Migrate env db).2.2 = none) :
    ¬ m.Pool.length = 0 ∧ checkMigrationPool m.Pool = none
    ∧ createMigrationTable env m = none ∧ env.fetchErr = none
    ∧ migrateLoop env m.table ((batchMax db.rows + 1) % uint64Mod) db.rows m.Pool db []
        = ((m.Migrate env db).1, (m.Migrate env db).2.1, none) := by
  by_cases h0 : m.Pool.length = 0
  · simp [Migrator.Migrate, h0] at h
  · cases h1 : checkMigrationPool m.Pool with
    | some e => simp [Migrator.Migrate, h0, h1] at h
    | none =>
      cases h2 : createMigrationTable env m with
      | some e => simp [Migrator.Migrate, h0, h1, h2] at h
      | none =>
        cases h3 : env.fetchErr with
        | some e => simp [Migrator.Migrate, h0, h1, h2, h3] at h
        | none =>
          refine ⟨h0, rfl, rfl, rfl, ?_⟩
          have hM : m.Migrate env db
              = migrateLoop env m.table ((batchMax db.rows + 1) % uint64Mod)
                  db.rows m.Pool db [] := by
            simp [Migrator.Migrate, h0, h1, h2, h3]
          rw [hM] at h ⊢
          rcases hr : migrateLoop env m.table ((batchMax db.rows + 1) % uint64Mod)
            db.rows m.Pool db []
            with ⟨a, b, c⟩
          rw [hr] at h
          simp only at h ⊢
          rw [h]

/-- C3: Migrate is idempotent: running it a second time against the state
produced by a successful first run (with the tracking table present and
readable) applies nothing, leaves the state unchanged and returns an empty
list with no error. -/
theorem Migrate_idempotent (env1 env2 : Env) (db : DBState) (m : Migrator)
    (h1 : (m.Migrate env1 db).2.2 = none)
    (hp : env2.probe = none) (hf : env2.fetchErr = none) :
    m.Migrate env2 (m.Migrate env1 db).1 = ((m.Migrate env1 db).1, [], none) := by
  obtain ⟨h0, hc, hcr, hfe, hloop⟩ := Migrate_success_parts env1 db m h1
  have hcov := migrateLoop_success_covers env1 m.table ((batchMax db.rows + 1) % uint64Mod)
    db.rows m.Pool db [] (m.Migrate env1 db).1 (m.Migrate env1 db).2.1 hloop
  obtain ⟨t, err, ht⟩ := Migrate_spec env1 db m
  have hall : ∀ item ∈ m.Pool, isExecuted (m.Migrate env1 db).1.rows item.Name = true := by
    intro item hitem
    have hrows : (m.Migrate env1 db).1.rows
        = db.rows ++ newEntries db.nextId ((batchMax db.rows + 1) % uint64Mod) t := by
      rw [ht]
    have hmig : (m.Migrate env1 db).2.1 = t := by
      rw [ht]
    rcases hcov item hitem with hA | hB
    · rw [hrows, isExecuted_append, hA]
      rfl
    · rw [hmig] at hB
      rw [hrows, isExecuted_append,
        isExecuted_newEntries ((batchMax db.rows + 1) % uint64Mod) t db.nextId item.Name hB]
      simp
  have hcr2 : createMigrationTable env2 m = none := by
    simp [createMigrationTable, hasTable, hp]
  have hloop2 := migrateLoop_all_executed env2 m.table
    ((batchMax (m.Migrate env1 db).1.rows + 1) % uint64Mod) (m.Migrate env1 db).1.rows
    m.Pool (m.Migrate env1 db).1 [] hall
  rw [Migrate_unfold_ok env2 (m.Migrate env1 db).1 m h0 hc hcr2 hf, hloop2]

/-- Witness for C3 at a concrete input: a second run over the two-migration
pool returns an empty list and no error. -/
theorem Migrate_idempotent_witness :
    mTwo.Migrate envOk (mTwo.Migrate envOk dbEmpty).1
      = ((mTwo.Migrate envOk dbEmpty).1, [], none) :=
  Migrate_idempotent envOk envOk dbEmpty mTwo (by decide) (by decide) (by decide)

theorem checkAux_nodup : ∀ (pool : List Migration) (seen : List String),
    checkMigrationPoolAux pool seen = none →
    (pool.map (fun it => it.Name)).Nodup ∧ ∀ it ∈ pool, it.Name ∉ seen := by
  intro pool
  induction pool with
  | nil =>
    intro seen _
    exact ⟨List.nodup_nil, by simp⟩
  | cons it rest ih =>
    intro seen h
    rw [checkMigrationPoolAux] at h
    by_cases hn : it.Name = ""
    · rw [if_pos hn] at h
      simp at h
    · rw [if_neg hn] at h
      by_cases hc : list.has seen it.Name = true
      · rw [if_pos hc] at h
        simp at h
      · rw [if_neg hc] at h
        have hc2 : it.Name ∉ seen := fun hmem => hc (list_has_eq_true seen it.Name hmem)
        obtain ⟨hnd, hdisj⟩ := ih (seen ++ [it.Name]) h
        constructor
        · rw [List.map_cons, List.nodup_cons]
          refine ⟨?_, hnd⟩
          intro hmem
          obtain ⟨it2, hit2, hname⟩ := List.mem_map.mp hmem
          have := hdisj it2 hit2
          rw [hname] at this
          exact this (by simp)
        · intro it2 hit2
          rcases List.mem_cons.mp hit2 with h1 | h2
          · rw [h1]
            exact hc2
          · exact fun hmem => (hdisj it2 h2) (List.mem_append_left _ hmem)

theorem checkMigrationPool_nodup (pool : List Migration)
    (h : checkMigrationPool pool = none) : (pool.map (fun it => it.Name)).Nodup :=
  (checkAux_nodup pool [] h).1

theorem Migration_exec_ok (env : Env) (mg : Migration) (cmds : List Cmd)
    (henv : ∀ s a, env.exec s a = none) (hb : env.beginErr = none)
    (hc : env.commitErr = none) (hcmds : ∀ c ∈ cmds, c.toSQL ≠ "") :
    (Migration.exec env mg cmds).2 = none := by
  have hrun : run env cmds = (cmds.map Cmd.toSQL, none) :=
    run_all_ok env cmds (fun x hx => ⟨hcmds x hx, henv x.toSQL []⟩)
  by_cases ht : mg.Transaction
  · simp [Migration.exec, ht, runInTransaction, hb, hrun, hc]
  · simp [Migration.exec, ht, hrun]

theorem revertEntry_no_match (env : Env) (table : String) (entry : MigrationEntry) :
    ∀ (pr : List Migration) (db : DBState) (rev : List String),
      (∀ it ∈ pr, it.Name ≠ entry.name) →
      revertEntry env table entry pr db rev = Sum.inl (db, rev) := by
  intro pr
  induction pr with
  | nil =>
    intro db rev _
    rfl
  | cons it rest ih =>
    intro db rev hno
    rw [revertEntry, if_neg (hno it (List.mem_cons_self it rest))]
    exact ih db rev (fun x hx => hno x (List.mem_cons_of_mem it hx))

theorem revertEntry_spec (env : Env) (table : String) (entry : MigrationEntry)
    (henv : ∀ s a, env.exec s a = none) (hb : env.beginErr = none)
    (hc : env.commitErr = none) :
    ∀ (pr : List Migration) (db : DBState) (rev : List String),
      (pr.map (fun it => it.Name)).Nodup →
      (∀ it ∈ pr, it.Down.pool.length ≠ 0 ∧ ∀ c ∈ it.Down.pool, c.toSQL ≠ "") →
      revertEntry env table entry pr db rev
        = (if pr.any (fun it => it.Name = entry.name)
           then Sum.inl ({ rows := db.rows.filter (fun r => r.id ≠ entry.id),
                           nextId := db.nextId }, rev ++ [entry.name])
           else Sum.inl (db, rev)) := by
  intro pr
  induction pr with
  | nil =>
    intro db rev _ _
    simp [revertEntry]
  | cons it rest ih =>
    intro db rev hnd hdown
    rw [List.map_cons, List.nodup_cons] at hnd
    by_cases hname : it.Name = entry.name
    · have hd := hdown it (List.mem_cons_self it rest)
      have hexec := Migration_exec_ok env it it.Down.pool henv hb hc hd.2
      rw [revertEntry, if_pos hname, if_neg hd.1, hexec, henv (deleteSQL table) [entry.id]]
      have hno : ∀ x ∈ rest, x.Name ≠ entry.name := by
        intro x hx heq
        exact hnd.1 (List.mem_map.mpr ⟨x, hx, by rw [heq, hname]⟩)
      rw [revertEntry_no_match env table entry rest _ _ hno]
      have hany : (it :: rest).any (fun x => x.Name = entry.name) = true := by
        simp [hname]
      rw [hany]
      simp
    · rw [revertEntry, if_neg hname,
        ih db rev hnd.2 (fun x hx => hdown x (List.mem_cons_of_mem it hx))]
      by_cases hany : rest.any (fun x => x.Name = entry.name) = true
      · rw [hany]
        have hany2 : (it :: rest).any (fun x => x.Name = entry.name) = true := by
          simp [List.any_cons, hany]
        rw [hany2]
      · have hany0 : rest.any (fun x => x.Name = entry.name) = false :=
          Bool.eq_false_iff.mpr hany
        rw [hany0]
        have hany2 : (it :: rest).any (fun x => x.Name = entry.name) = false := by
          simp [List.any_cons, hany0, hname]
        rw [hany2]

theorem any_name_reverse (pool : List Migration) (n : String) :
    pool.reverse.any (fun it => it.Name = n) = pool.any (fun it => it.Name = n) := by
  cases h : pool.any (fun it => it.Name = n) with
  | true =>
    obtain ⟨x, hx, hpx⟩ := List.any_eq_true.mp h
    exact List.any_eq_true.mpr ⟨x, List.mem_reverse.mpr hx, hpx⟩
  | false =>
    cases h2 : pool.reverse.any (fun it => it.Name = n) with
    | false => rfl
    | true =>
      obtain ⟨x, hx, hpx⟩ := List.any_eq_true.mp h2
      have h3 : pool.any (fun it => it.Name = n) = true :=
        List.any_eq_true.mpr ⟨x, List.mem_reverse.mp hx, hpx⟩
      rw [h] at h3
      exact absurd h3 Bool.false_ne_true

theorem revertLoop_spec (env : Env) (table : String) (pool : List Migration)
    (henv : ∀ s a, env.exec s a = none) (hb : env.beginErr = none)
    (hc : env.commitErr = none) (hnd : (pool.map (fun it => it.Name)).Nodup)
    (hdown : ∀ it ∈ pool, it.Down.pool.length ≠ 0 ∧ ∀ c ∈ it.Down.pool, c.toSQL ≠ "") :
    ∀ (es : List MigrationEntry) (db : DBState) (rev : List String),
      ∃ db2, revertLoop env table pool es db rev
        = (db2, rev ++ (es.filter
            (fun e => pool.any (fun it => it.Name = e.name))).map (fun e => e.name), none) := by
  intro es
  induction es with
  | nil =>
    intro db rev
    exact ⟨db, by simp [revertLoop]⟩
  | cons entry rest ih =>
    intro db rev
    have hnd2 : (pool.reverse.map (fun it => it.Name)).Nodup := by
      rw [List.map_reverse]
      exact List.nodup_reverse.mpr hnd
    have hdown2 : ∀ it ∈ pool.reverse, it.Down.pool.length ≠ 0
        ∧ ∀ c ∈ it.Down.pool, c.toSQL ≠ "" :=
      fun it hit => hdown it (List.mem_reverse.mp hit)
    rw [revertLoop, revertEntry_spec env table entry henv hb hc pool.reverse db rev hnd2 hdown2,
      any_name_reverse pool entry.name]
    cases hany : pool.any (fun it => it.Name = entry.name) with
    | true =>
      obtain ⟨db2, hdb2⟩ := ih
        { rows := db.rows.filter (fun r => r.id ≠ entry.id), nextId := db.nextId }
        (rev ++ [entry.name])
      refine ⟨db2, ?_⟩
      have hfil : (entry :: rest).filter (fun e => pool.any (fun it => it.Name = e.name))
          = entry :: rest.filter (fun e => pool.any (fun it => it.Name = e.name)) := by
        simp [List.filter_cons, hany]
      simpa [hfil] using hdb2
    | false =>
      obtain ⟨db2, hdb2⟩ := ih db rev
      refine ⟨db2, ?_⟩
      have hfil : (entry :: rest).filter (fun e => pool.any (fun it => it.Name = e.name))
          = rest.filter (fun e => pool.any (fun it => it.Name = e.name)) := by
        simp [List.filter_cons, hany]
      simpa [hfil] using hdb2

/-- C2 (amended): with a valid pool and a working database, Rollback reverts
exactly the maximum-batch entries whose name appears in the pool, in reverse
chronological order, and Revert reverts every executed entry whose name
appears in the pool, in reverse chronological order; entries absent from the
pool are silently skipped. -/
theorem Rollback_Revert_reverse_in_pool (env : Env) (db : DBState) (m : Migrator)
    (h0 : ¬ m.Pool.length = 0) (h1 : checkMigrationPool m.Pool = none)
    (hp : env.probe = none) (hf : env.fetchErr = none) (hrows : ¬ db.rows.length = 0)
    (henv : ∀ s a, env.exec s a = none) (hb : env.beginErr = none)
    (hcm : env.commitErr = none)
    (hdown : ∀ it ∈ m.Pool, it.Down.pool.length ≠ 0 ∧ ∀ c ∈ it.Down.pool, c.toSQL ≠ "") :
    (∃ db2, m.Rollback env db
      = (db2, ((lastBatchExecuted db.rows).reverse.filter
          (fun e => m.Pool.any (fun it => it.Name = e.name))).map (fun e => e.name), none))
    ∧ (∃ db3, m.Revert env db
      = (db3, (db.rows.reverse.filter
          (fun e => m.Pool.any (fun it => it.Name = e.name))).map (fun e => e.name), none)) := by
  have hnd := checkMigrationPool_nodup m.Pool h1
  have hht : hasTable env = true := by simp [hasTable, hp]
  constructor
  · obtain ⟨db2, h2⟩ := revertLoop_spec env m.table m.Pool henv hb hcm hnd hdown
      (lastBatchExecuted db.rows).reverse db []
    refine ⟨db2, ?_⟩
    simp only [Migrator.Rollback, h0, if_false, h1, hht, hf, hrows]
    simpa using h2
  · obtain ⟨db3, h3⟩ := revertLoop_spec env m.table m.Pool henv hb hcm hnd hdown
      db.rows.reverse db []
    refine ⟨db3, ?_⟩
    simp only [Migrator.Revert, h0, if_false, h1, hht, hf, hrows]
    simpa using h3

/-- Witness for C2 (amended) at a concrete input. -/
theorem Rollback_Revert_reverse_in_pool_witness :
    ∃ db2, mRoll.Rollback envOk dbRoll
      = (db2, ((lastBatchExecuted dbRoll.rows).reverse.filter
          (fun e => mRoll.Pool.any (fun it => it.Name = e.name))).map (fun e => e.name), none) :=
  (Rollback_Revert_reverse_in_pool envOk dbRoll mRoll (by decide) (by decide) (by decide)
    (by decide) (by decide) (fun s a => rfl) (by decide) (by decide) (by decide)).1

/-- Counterexample to C2 as stated: an executed entry of the maximum batch
whose name is not in the pool is silently skipped, so Rollback reverts
nothing although the claim requires the full maximum-batch name set. -/
theorem Rollback_skips_entry_absent_from_pool :
    mGhost.Rollback envOk dbGhost = (dbGhost, [], none)
    ∧ (lastBatchExecuted dbGhost.rows).map (fun e => e.name) = ["ghost"]
    ∧ ¬ (([] : List String) = ["ghost"]) :=
  ⟨by decide, by decide, by decide⟩

end migrator
